import Mathlib

/-!
# Verification of the wine-value-finder enrichment pipeline

Shallow embedding of the backend of `wine-value-finder` (TypeScript) in Lean 4,
together with proofs about the properties its specification states.

Conventions of the embedding:
* JavaScript `number` is modelled as `ℚ` (exact rational arithmetic); the
  claims under study never evaluate the code at a division by zero, where
  IEEE-754 infinities would diverge from the rational model (`x / 0 = 0` in
  `ℚ`), and no claim depends on the value produced there.
* `null` is modelled as `Option.none`.
* `Math.round` rounds half toward positive infinity, i.e. `⌊x + 1/2⌋`.
* JavaScript truthiness of a nullable number (`if (x)`) is: non-null and
  nonzero.
-/

namespace WineValue

/-- JS `Math.round`: round half toward +∞. -/
def jsRound (q : ℚ) : ℤ := (q + 1/2).floor

/-- JS `Math.min` on integers. -/
def jsMin (a b : ℤ) : ℤ := if a ≤ b then a else b

/-- JS `Math.max` on integers. -/
def jsMax (a b : ℤ) : ℤ := if a ≤ b then b else a

/-- JS truthiness of a nullable number: `null` and `0` are falsy. -/
def jsTruthy : Option ℚ → Bool
  | none => false
  | some q => q != 0

/-! ## Value calculator (`src/backend/src/services/value-calculator.ts`) -/

/-- `calculateMarkup(restaurantPrice, retailPrice)`:
`((restaurantPrice - retailPrice) / retailPrice) * 100`. -/
def calculateMarkup (restaurantPrice retailPrice : ℚ) : ℚ :=
  (restaurantPrice - retailPrice) / retailPrice * 100

/-- The quality-score combination computed inline in `calculateValueScore`
(lines 15–23): 40% critic + 60% community when both are present, else
whichever single score is present, else `null`. -/
def qualityScore : Option ℚ → Option ℚ → Option ℚ
  | some c, some m => some (c * 0.4 + m * 0.6)
  | some c, none => some c
  | none, some m => some m
  | none, none => none

/-- `calculateValueScore(restaurantPrice, retailPriceAvg, criticScore,
communityScore)`.  The guard `if (!retailPriceAvg) return null` uses JS
truthiness, so it rejects both `null` and `0`.  Otherwise the result is
`clamp(0, 100, round(quality / (restaurantPrice / retailPriceAvg)))`. -/
def calculateValueScore (restaurantPrice : ℚ)
    (retailPriceAvg criticScore communityScore : Option ℚ) : Option ℤ :=
  if jsTruthy retailPriceAvg = false then none
  else
    match qualityScore criticScore communityScore with
    | none => none
    | some q =>
      let r := retailPriceAvg.getD 0
      let markupRatio := restaurantPrice / r
      let valueScore := q / markupRatio
      some (jsMin 100 (jsMax 0 (jsRound valueScore)))

/-! ## Data model (`src/backend/src/types/wine.ts`)

`createdAt` (a wall-clock `Date`) and the two generated verification-link URL
strings (`wineSearcherUrl`, `cellarTrackerUrl`, which no claim mentions) are
not modelled; all other fields of `ParsedWine`, `WineLookupResult`,
`WineValueResult` and `SessionData` are carried verbatim. -/

/-- `lookupStatus` values of `WineLookupResult`. -/
inductive LookupStatus where
  | pending
  | found
  | partialStatus
  | notFound
  | error
  deriving DecidableEq, Repr

/-- Session `status` values of `SessionData`. -/
inductive SessionStatus where
  | parsing
  | parsed
  | lookingUp
  | complete
  | error
  deriving DecidableEq, Repr

/-- `dataSource` provenance tag of `WineLookupData` (`wine-lookup.ts`). -/
inductive DataSource where
  | api
  | webSearch
  | mixed
  deriving DecidableEq, Repr

/-- `ParsedWine` (`types/wine.ts`). -/
structure ParsedWine where
  name : String
  producer : String
  vintage : Option ℤ
  region : String
  grapeVariety : String
  restaurantPrice : ℚ
  rawText : String
  confidence : ℚ
  deriving DecidableEq, Repr

/-- `WineValueResult` (`types/wine.ts`): a parsed wine together with its
enrichment fields. -/
structure Wine where
  name : String
  producer : String
  vintage : Option ℤ
  region : String
  grapeVariety : String
  restaurantPrice : ℚ
  rawText : String
  confidence : ℚ
  retailPriceAvg : Option ℚ
  retailPriceMin : Option ℚ
  criticScore : Option ℚ
  communityScore : Option ℚ
  communityReviewCount : Option ℚ
  lookupStatus : LookupStatus
  markupPercent : Option ℤ
  valueScore : Option ℤ
  deriving DecidableEq, Repr

/-- `WineLookupData` (`wine-lookup.ts`): what one orchestrated lookup returns. -/
structure WineLookupData where
  retailPriceAvg : Option ℚ
  retailPriceMin : Option ℚ
  criticScore : Option ℚ
  communityScore : Option ℚ
  communityReviewCount : Option ℚ
  dataSource : Option DataSource
  deriving DecidableEq, Repr

/-- `SessionData` (`types/wine.ts`), without the unmodelled `createdAt`. -/
structure Session where
  id : String
  wines : List Wine
  currency : String
  status : SessionStatus
  error : Option String
  deriving DecidableEq, Repr

/-! ## Wave merge (`routes/lookup.ts` = `src/unnamed/part_002`, lines 48–94)

The body of the inner result loop of `runWaves`: merge the lookup data into
the wine record (null-coalescing `??` keeps existing non-null fields),
recompute `markupPercent` and `valueScore`, and classify `lookupStatus`. -/

/-- One iteration of the merge loop of `runWaves` for a wine and its (possibly
absent) lookup result. -/
def mergeWineData (w : Wine) (data : Option WineLookupData) : Wine :=
  match data with
  | some d =>
    let retailPriceAvg := w.retailPriceAvg.or d.retailPriceAvg
    let retailPriceMin := w.retailPriceMin.or d.retailPriceMin
    let criticScore := w.criticScore.or d.criticScore
    let communityScore := w.communityScore.or d.communityScore
    let communityReviewCount := w.communityReviewCount.or d.communityReviewCount
    let markupPercent :=
      if jsTruthy retailPriceAvg then
        some (jsRound (calculateMarkup w.restaurantPrice (retailPriceAvg.getD 0)))
      else w.markupPercent
    let valueScore :=
      calculateValueScore w.restaurantPrice retailPriceAvg criticScore communityScore
    let lookupStatus : LookupStatus :=
      if valueScore.isSome then .found
      else if jsTruthy retailPriceAvg || jsTruthy criticScore || jsTruthy communityScore then
        .partialStatus
      else .notFound
    { w with
      retailPriceAvg := retailPriceAvg
      retailPriceMin := retailPriceMin
      criticScore := criticScore
      communityScore := communityScore
      communityReviewCount := communityReviewCount
      markupPercent := markupPercent
      valueScore := valueScore
      lookupStatus := lookupStatus }
  | none =>
    if !(jsTruthy w.retailPriceAvg || jsTruthy w.criticScore || jsTruthy w.communityScore) then
      { w with lookupStatus := .notFound }
    else w

/-! ## Lookup cache (`wine-lookup.ts` = `src/unnamed/part_006`, lines 16–46)

The cache is a JS `Map` keyed by `name.toLowerCase().trim()|vintage|currency`.
It is modelled as an association list with unique keys (`set` replaces,
`delete` removes).  The 24-hour TTL timestamps are not modelled: every stored
entry is treated as fresh, since no claim under study exercises expiry. -/

/-- JS whitespace characters (ASCII portion of `\s`). -/
def jsIsSpace (c : Char) : Bool :=
  c == ' ' || c == '\t' || c == '\n' || c == '\x0b' || c == '\x0c' || c == '\r'

/-- JS `String.prototype.trim` on a character list. -/
def jsTrimChars (cs : List Char) : List Char :=
  ((cs.dropWhile jsIsSpace).reverse.dropWhile jsIsSpace).reverse

/-- JS `s.trim()`. -/
def jsTrim (s : String) : String := String.mk (jsTrimChars s.data)

/-- `cacheKey(wine, currency)`: `name.toLowerCase().trim()|vintage|currency`
with `'nv'` for a null vintage. -/
def cacheKey (w : Wine) (currency : String) : String :=
  let name := String.mk (jsTrimChars (w.name.data.map Char.toLower))
  let vintage := match w.vintage with
    | some v => toString v
    | none => "nv"
  name ++ "|" ++ vintage ++ "|" ++ currency

/-- The in-memory lookup cache, as a unique-key association list. -/
abbrev Cache := List (String × WineLookupData)

/-- `getCached(wine, currency)` (TTL treated as always fresh). -/
def getCached (cache : Cache) (w : Wine) (currency : String) : Option WineLookupData :=
  List.lookup (cacheKey w currency) cache

/-- `setCache(wine, currency, data)`: JS `Map.set` replaces the key. -/
def setCache (w : Wine) (currency : String) (d : WineLookupData) (cache : Cache) : Cache :=
  (cacheKey w currency, d) :: cache.filter (fun e => e.1 != cacheKey w currency)

/-- `clearWineCache(wine, currency)`: JS `Map.delete`. -/
def clearWineCache (w : Wine) (currency : String) (cache : Cache) : Cache :=
  cache.filter (fun e => e.1 != cacheKey w currency)

/-! ## Batch lookup (`wine-lookup.ts`, `lookupWinesBatch`)

`lookupWinesBatch` first reads the cache for every wine of the wave, then
looks up the uncached ones (concurrently in the source; the per-wine results
are independent, so they are modelled by an oracle `Wine → WineLookupData`
standing for the outcome of `lookupSingleWine` — which never throws — for
that wine) and stores each fresh result with `setCache`.  All cache reads of
a wave happen before its writes, exactly as in the source. -/

/-- `lookupWinesBatch(wines, currency)` for one wave: the data returned per
wine, and the cache including the freshly stored results. -/
def lookupWinesBatch (oracle : Wine → WineLookupData) (cache : Cache)
    (currency : String) (wave : List Wine) : List WineLookupData × Cache :=
  let reads := wave.map (fun w => (w, getCached cache w currency))
  let results := reads.map (fun r => r.2.getD (oracle r.1))
  let cache' := reads.foldl
    (fun acc r => if r.2.isSome then acc else setCache r.1 currency (oracle r.1) acc) cache
  (results, cache')

/-! ## Wave scheduler (`routes/lookup.ts`, `runWaves` and the POST handler) -/

/-- `runWaves`: slice the list into waves of `WAVE_SIZE = 5`, look each wave
up as one batch and merge the results elementwise; waves run sequentially.
(Persisting the session snapshot after each wave has no effect on the final
state and is not modelled.) -/
def runWaves (oracle : Wine → WineLookupData) (currency : String) :
    List Wine → Cache → List Wine × Cache
  | [], cache => ([], cache)
  | a :: b :: c :: d :: e :: rest, cache =>
    let wave := [a, b, c, d, e]
    let r := lookupWinesBatch oracle cache currency wave
    let merged := List.zipWith (fun x dt => mergeWineData x (some dt)) wave r.1
    let rest' := runWaves oracle currency rest r.2
    (merged ++ rest'.1, rest'.2)
  | l, cache =>
    let r := lookupWinesBatch oracle cache currency l
    (List.zipWith (fun x dt => mergeWineData x (some dt)) l r.1, r.2)

/-- Positional write-back of processed results: the source mutates the wine
objects selected by `filter` in place, which on an object-free state is the
replacement of the selected positions, in order, by the processed copies. -/
def updateFiltered (p : Wine → Bool) : List Wine → List Wine → List Wine
  | [], _ => []
  | x :: xs, news =>
    if p x then
      match news with
      | [] => x :: updateFiltered p xs []
      | n :: ns => n :: updateFiltered p xs ns
    else x :: updateFiltered p xs news

/-- The retry filter of the POST handler (line 102):
`w.valueScore === null && w.lookupStatus !== 'pending'`. -/
def retryPred (w : Wine) : Bool :=
  w.valueScore.isNone && w.lookupStatus != .pending

/-- The observable outcome of one enrichment run of the POST handler. -/
structure LookupRunOutcome where
  wines1 : List Wine
  retried : List Wine
  cacheCleared : Cache
  finalWines : List Wine
  finalCache : Cache
  finalStatus : SessionStatus

/-- The enrichment body of the `POST /:sessionId` handler (lines 28–120):
pass 1 over the pending wines, recollection of the wines still missing a
value score, cache invalidation for exactly those, one retry pass, and the
transition to `complete`.  `oracle1`/`oracle2` stand for the per-wine lookup
outcomes of the two passes. -/
def lookupRun (oracle1 oracle2 : Wine → WineLookupData) (cache : Cache)
    (sess : Session) : LookupRunOutcome :=
  let isPending : Wine → Bool := fun w => w.lookupStatus == .pending
  let pendingWines := sess.wines.filter isPending
  let r1 := runWaves oracle1 sess.currency pendingWines cache
  let wines1 := updateFiltered isPending sess.wines r1.1
  let needsRetry := wines1.filter retryPred
  let cacheCleared := needsRetry.foldl (fun c w => clearWineCache w sess.currency c) r1.2
  let r2 := runWaves oracle2 sess.currency needsRetry cacheCleared
  ⟨wines1, needsRetry, cacheCleared, updateFiltered retryPred wines1 r2.1, r2.2, .complete⟩

/-- The `POST /:sessionId` handler with its 409 concurrency guard: a session
already in `looking_up` is rejected. -/
def postLookupHandler (oracle1 oracle2 : Wine → WineLookupData) (cache : Cache)
    (sess : Session) : Option LookupRunOutcome :=
  if sess.status == .lookingUp then none
  else some (lookupRun oracle1 oracle2 cache sess)

/-! ## Edit handler (`src/backend/src/routes/wines.ts`, `PUT /:sessionId/:index`)

The handler validates the index, applies the provided fields, resets every
enrichment field to its unenriched state and sets `lookupStatus` to
`pending`.  It performs no cache operation, so the system-level step carries
the cache through unchanged. -/

/-- The JSON body of the edit request; `none` = field absent
(`vintage` may be present and null). -/
structure EditBody where
  name : Option String
  producer : Option String
  vintage : Option (Option ℤ)
  restaurantPrice : Option ℚ

/-- The `PUT /:sessionId/:index` handler on the session: `none` models the
400 response for an invalid index. -/
def editWineHandler (sess : Session) (index : ℕ) (body : EditBody) : Option Session :=
  match sess.wines.get? index with
  | none => none
  | some w =>
    let w := { w with
      name := body.name.getD w.name
      producer := body.producer.getD w.producer
      vintage := body.vintage.getD w.vintage
      restaurantPrice := body.restaurantPrice.getD w.restaurantPrice
      retailPriceAvg := none
      retailPriceMin := none
      criticScore := none
      communityScore := none
      communityReviewCount := none
      lookupStatus := .pending
      markupPercent := none
      valueScore := none }
    some { sess with wines := sess.wines.set index w }

/-- The edit operation on the whole system state (session, lookup cache).
The handler never touches the cache, so it passes through unchanged. -/
def editSystemStep (sess : Session) (index : ℕ) (body : EditBody) (cache : Cache) :
    Option (Session × Cache) :=
  (editWineHandler sess index body).map (fun s => (s, cache))

/-! ## Structured price source (`src/backend/src/services/wine-searcher-api.ts`) -/

/-- The `status` field of `WineSearcherApiResult`. -/
inductive ApiStatus where
  | success
  | noMatch
  | ambiguous
  | error
  | rateLimited
  deriving DecidableEq, Repr

/-- `WineSearcherApiResult`. -/
structure WineSearcherApiResult where
  status : ApiStatus
  retailPriceAvg : Option ℚ
  retailPriceMin : Option ℚ
  retailPriceMax : Option ℚ
  criticScore : Option ℚ
  region : Option String
  grape : Option String
  matchedName : Option String
  deriving DecidableEq, Repr

/-- The `NULL_RESULT` constant with a given status (`{ ...NULL_RESULT, status }`). -/
def nullApiResult (st : ApiStatus) : WineSearcherApiResult :=
  ⟨st, none, none, none, none, none, none, none⟩

/-- The daily rate-tracking module state (lines 27–30): the mutable
`dailyCallCount` / `dailyResetDate` pair.  A local day is an abstract day
identifier (`new Date().toDateString()` compared for equality). -/
structure RateState where
  dailyCallCount : ℕ
  dailyResetDate : ℕ
  deriving DecidableEq, Repr

/-- `DAILY_LIMIT = 95` (a 5-call buffer below the 100-call free tier). -/
def DAILY_LIMIT : ℕ := 95

/-- `checkAndIncrementDailyLimit()`: reset the counter when the local day
changed, refuse when the limit is reached, otherwise count the call. -/
def checkAndIncrementDailyLimit (today : ℕ) (st : RateState) : Bool × RateState :=
  let st := if today != st.dailyResetDate then ⟨0, today⟩ else st
  if st.dailyCallCount ≥ DAILY_LIMIT then (false, st)
  else (true, ⟨st.dailyCallCount + 1, st.dailyResetDate⟩)

/-- `getRemainingApiCalls()`. -/
def getRemainingApiCalls (today : ℕ) (st : RateState) : ℕ :=
  if today != st.dailyResetDate then DAILY_LIMIT
  else DAILY_LIMIT - st.dailyCallCount

/-- `lookupViaWineSearcherApi`, at the level of its gate logic: it returns
`error` when no API key is configured, consults the daily-quota gate before
the external call and returns `rate_limited` without calling when the gate
refuses; the outcome of the actual HTTP call and response parsing (lines
134–193) is abstracted by `external`.  The returned `Bool` records whether
the external call was attempted. -/
def lookupViaWineSearcherApi (hasApiKey : Bool) (today : ℕ) (st : RateState)
    (external : WineSearcherApiResult) : WineSearcherApiResult × RateState × Bool :=
  if !hasApiKey then (nullApiResult .error, st, false)
  else
    let (ok, st') := checkAndIncrementDailyLimit today st
    if !ok then (nullApiResult .rateLimited, st', false)
    else (external, st', true)

/-! ## Orchestrator (`wine-lookup.ts`, `lookupSingleWine`) -/

/-- `CommunityScoreResult` (`community-lookup.ts`). -/
structure CommunityScoreResult where
  communityScore : Option ℚ
  communityReviewCount : Option ℚ
  deriving DecidableEq, Repr

/-- `WebSearchFallbackResult` (`web-search-fallback.ts` = `src/unnamed/part_009`). -/
structure WebSearchFallbackResult where
  retailPriceAvg : Option ℚ
  retailPriceMin : Option ℚ
  criticScore : Option ℚ
  communityScore : Option ℚ
  communityReviewCount : Option ℚ
  deriving DecidableEq, Repr

/-- The JS test `communityData?.communityScore !== null` of line 84:
optional chaining yields `undefined` (not `null`) when `communityData`
itself is absent, so the test is true in that case. -/
def communityNotNull : Option CommunityScoreResult → Bool
  | none => true
  | some c => c.communityScore.isSome

/-- The adoption condition of line 79:
`apiData && apiData.status === 'success' && (retailPriceAvg !== null || criticScore !== null)`. -/
def apiDataGood : Option WineSearcherApiResult → Bool
  | none => false
  | some api => api.status == .success && (api.retailPriceAvg.isSome || api.criticScore.isSome)

/-- `lookupSingleWine(wine, currency)`: the per-wine orchestrator.
`apiOutcome` / `communityOutcome` are the settled results of the two parallel
lookups (`none` models a rejected promise); `fallback` is the result
`lookupViaWebSearch` would produce, and the returned `Bool` records whether
that fallback was actually invoked. -/
def lookupSingleWine (apiOutcome : Option WineSearcherApiResult)
    (communityOutcome : Option CommunityScoreResult)
    (fallback : WebSearchFallbackResult) : WineLookupData × Bool :=
  let base : WineLookupData :=
    { retailPriceAvg := none
      retailPriceMin := none
      criticScore := none
      communityScore := communityOutcome.bind (·.communityScore)
      communityReviewCount := communityOutcome.bind (·.communityReviewCount)
      dataSource := none }
  if apiDataGood apiOutcome then
    let api := (apiOutcome.getD (nullApiResult .error))
    ({ base with
        retailPriceAvg := api.retailPriceAvg
        retailPriceMin := api.retailPriceMin
        criticScore := api.criticScore
        dataSource := some (if communityNotNull communityOutcome then .mixed else .api) },
      false)
  else
    let afterPrice : WineLookupData :=
      { base with
        retailPriceAvg := fallback.retailPriceAvg
        retailPriceMin := fallback.retailPriceMin
        criticScore := fallback.criticScore
        dataSource := some .webSearch }
    let result :=
      if afterPrice.communityScore.isNone then
        { afterPrice with
          communityScore := fallback.communityScore
          communityReviewCount := fallback.communityReviewCount }
      else afterPrice
    (result, true)

/-! ## Name normalizer (`src/backend/src/services/wine-matcher.ts`)

`normalizeWineName` is a pipeline of JS global regex replacements.  Each
abbreviation pattern is `\b` + a case-insensitive literal alternative +
trailing whitespace (`\s*`, or `\s+` for the bare `st` rule); the regex
alternatives produced by an optional character (`pnt?\.`, `vyd\.?`) are
listed greedily, longest first, exactly as the backtracking regex tries
them.  Scanning follows JS `String.replace` with a global regex: matches are
non-overlapping, found left to right on the original string, and word
boundaries are judged on the original characters.  The recursions carry
explicit fuel (an upper bound on steps, supplied as the string length plus
one, which the per-step consumption of at least one character never
exhausts); they are only ever evaluated on concrete strings. -/

/-- JS `\w` (word character): ASCII letter, digit or underscore. -/
def isWordChar (c : Char) : Bool := c.isAlphanum || c == '_'

/-- One abbreviation rewrite rule of the `ABBREVIATIONS` table. -/
structure AbbrevRule where
  alts : List (List Char)
  spacePlus : Bool
  replacement : List Char

/-- The `ABBREVIATIONS` table (lines 3–18), in source order. -/
def ABBREVIATIONS : List AbbrevRule :=
  [⟨["ch."].map String.data, false, "Chateau ".data⟩,
   ⟨["cht."].map String.data, false, "Chateau ".data⟩,
   ⟨["dom."].map String.data, false, "Domaine ".data⟩,
   ⟨["st."].map String.data, false, "Saint ".data⟩,
   ⟨["st"].map String.data, true, "Saint ".data⟩,
   ⟨["mt."].map String.data, false, "Mount ".data⟩,
   ⟨["cab."].map String.data, false, "Cabernet ".data⟩,
   ⟨["sauv."].map String.data, false, "Sauvignon ".data⟩,
   ⟨["chard."].map String.data, false, "Chardonnay ".data⟩,
   ⟨["ries."].map String.data, false, "Riesling ".data⟩,
   ⟨["pnt.", "pn."].map String.data, false, "Pinot ".data⟩,
   ⟨["grn.", "gr."].map String.data, false, "Grand ".data⟩,
   ⟨["vyd.", "vyd"].map String.data, false, "Vineyard ".data⟩,
   ⟨["vly.", "vly"].map String.data, false, "Valley ".data⟩]

/-- Try to match one literal alternative case-insensitively at the head of
`cs`; on success return the characters it consumed and the rest. -/
def matchAlt (alt : List Char) (cs : List Char) : Option (List Char × List Char) :=
  if (cs.take alt.length).map Char.toLower == alt && alt.length ≤ cs.length then
    some (cs.take alt.length, cs.drop alt.length)
  else none

/-- Try the alternatives of a rule in order at the head of `cs`, then consume
trailing whitespace; returns the last consumed character (for subsequent
word-boundary checks) and the rest. -/
def tryMatchRule (r : AbbrevRule) (cs : List Char) : Option (Char × List Char) :=
  match r.alts.findSome? (fun alt => matchAlt alt cs) with
  | none => none
  | some (matched, rest) =>
    let spaces := rest.takeWhile jsIsSpace
    if r.spacePlus && spaces.isEmpty then none
    else
      let last := (matched ++ spaces).getLastD ' '
      some (last, rest.drop spaces.length)

/-- The left-to-right global scan of one rule, with fuel. -/
def applyAbbrevGo (r : AbbrevRule) : ℕ → Option Char → List Char → List Char
  | 0, _, cs => cs
  | _ + 1, _, [] => []
  | fuel + 1, prev, c :: cs =>
    let boundary := match prev with
      | none => true
      | some p => !isWordChar p
    match if boundary then tryMatchRule r (c :: cs) else none with
    | some (last, rest) => r.replacement ++ applyAbbrevGo r fuel (some last) rest
    | none => c :: applyAbbrevGo r fuel (some c) cs

/-- `name.replace(pattern, replacement)` for one abbreviation rule. -/
def applyAbbrevRule (cs : List Char) (r : AbbrevRule) : List Char :=
  applyAbbrevGo r (cs.length + 1) none cs

/-- The vintage-shorthand rewrite (lines 29–32):
`/'(\d{2})\b/g` with the 50-year pivot. -/
def applyVintage : ℕ → List Char → List Char
  | 0, cs => cs
  | _ + 1, [] => []
  | fuel + 1, c :: cs =>
    if c == '\'' then
      match cs with
      | d1 :: d2 :: rest =>
        if d1.isDigit && d2.isDigit &&
            (match rest with | [] => true | r :: _ => !isWordChar r) then
          let num := (d1.toNat - 48) * 10 + (d2.toNat - 48)
          (if num > 50 then ['1', '9'] else ['2', '0']) ++ [d1, d2] ++ applyVintage fuel rest
        else c :: applyVintage fuel cs
      | _ => c :: applyVintage fuel cs
    else c :: applyVintage fuel cs

/-- `name.replace(/\s+/g, ' ')`, with fuel. -/
def collapseWs : ℕ → List Char → List Char
  | 0, cs => cs
  | _ + 1, [] => []
  | fuel + 1, c :: cs =>
    if jsIsSpace c then ' ' :: collapseWs fuel (cs.dropWhile jsIsSpace)
    else c :: collapseWs fuel cs

/-- `normalizeWineName(raw)`: trim, expand abbreviations, rewrite vintage
shorthand, collapse whitespace, trim. -/
def normalizeWineName (raw : String) : String :=
  let name := jsTrimChars raw.data
  let name := ABBREVIATIONS.foldl applyAbbrevRule name
  let name := applyVintage (name.length + 1) name
  let name := jsTrimChars (collapseWs (name.length + 1) name)
  String.mk name

/-! ## Concrete fixtures used by counterexamples and witnesses -/

/-- The spec's end-to-end example wine: `{name:"Chateau Margaux", menuPrice:450}`,
fresh from parsing. -/
def margauxWine : Wine :=
  { name := "Chateau Margaux"
    producer := "Chateau Margaux"
    vintage := none
    region := "Margaux"
    grapeVariety := ""
    restaurantPrice := 450
    rawText := ""
    confidence := 1
    retailPriceAvg := none
    retailPriceMin := none
    criticScore := none
    communityScore := none
    communityReviewCount := none
    lookupStatus := .pending
    markupPercent := none
    valueScore := none }

/-- The spec's end-to-end enrichment data:
`{retailPriceAvg:300, criticScore:96, communityScore:92}`. -/
def margauxData : WineLookupData :=
  ⟨some 300, none, some 96, some 92, none, none⟩

/-- Lookup data whose retail price is negative (a value the defensive parser
does not exclude). -/
def negRetailData : WineLookupData :=
  ⟨some (-300), none, none, none, none, none⟩

/-- Lookup data whose retail price is exactly `0`. -/
def zeroRetailData : WineLookupData :=
  ⟨some 0, none, none, none, none, none⟩

/-- Lookup data with every field null (a failed lookup). -/
def nullLookupData : WineLookupData :=
  ⟨none, none, none, none, none, none⟩

/-- An already-enriched wine, for the edit scenario. -/
def enrichedWine : Wine :=
  { margauxWine with
    retailPriceAvg := some 300
    criticScore := some 96
    communityScore := some 92
    lookupStatus := .found
    markupPercent := some 50
    valueScore := some 62 }

/-- A session holding the enriched wine. -/
def enrichedSession : Session :=
  ⟨"sess-1", [enrichedWine], "USD", .complete, none⟩

/-- A cache holding the enriched wine's entry. -/
def enrichedCache : Cache :=
  [(cacheKey enrichedWine "USD", margauxData)]

/-- An edit request body changing only the restaurant price. -/
def priceEditBody : EditBody := ⟨none, none, none, some 500⟩

/-- A one-wine session about to be enriched. -/
def testSession : Session := ⟨"s0", [margauxWine], "USD", .parsed, none⟩

/-- The wine initialization of the upload handler (`routes/upload.ts` =
`src/unnamed/part_004`, lines 33–45): all enrichment fields null,
`lookupStatus: 'pending'`. -/
def initWine (p : ParsedWine) : Wine :=
  { name := p.name
    producer := p.producer
    vintage := p.vintage
    region := p.region
    grapeVariety := p.grapeVariety
    restaurantPrice := p.restaurantPrice
    rawText := p.rawText
    confidence := p.confidence
    retailPriceAvg := none
    retailPriceMin := none
    criticScore := none
    communityScore := none
    communityReviewCount := none
    lookupStatus := .pending
    markupPercent := none
    valueScore := none }

/-- The wine lists reachable through the modelled public operations: upload
(parsing), a full enrichment run, and a wine edit. -/
inductive ReachableWines : List Wine → Prop where
  | upload (ps : List ParsedWine) : ReachableWines (ps.map initWine)
  | lookup (o1 o2 : Wine → WineLookupData) (cache : Cache) (sess : Session)
      (out : LookupRunOutcome) (hr : ReachableWines sess.wines)
      (h : postLookupHandler o1 o2 cache sess = some out) :
      ReachableWines out.finalWines
  | edit (sess : Session) (i : ℕ) (body : EditBody) (sess' : Session)
      (hr : ReachableWines sess.wines) (h : editWineHandler sess i body = some sess') :
      ReachableWines sess'.wines

/-! ## Basic facts about the JS arithmetic helpers -/

/-- `jsRound` agrees with the mathematical floor of `q + 1/2`. -/
theorem jsRound_eq_floor (q : ℚ) : jsRound q = ⌊q + 1/2⌋ := by
  rw [jsRound, Rat.floor_def', Rat.floor_def]

/-! ## C1 — value-score nullability -/

/-- C1 counterexample: at `retailPriceAvg = 0` the claimed equivalence
"`calculateValueScore` returns non-null iff `retailPriceAvg` is non-null and
a quality score is non-null" is false: the guard `if (!retailPriceAvg)` uses
JS truthiness, and `0` is falsy. -/
theorem calculateValueScore_iff_counterexample :
    ¬ (calculateValueScore 450 (some 0) (some 96) (some 92) ≠ none ↔
        ((some (0 : ℚ)) ≠ none ∧ ((some (96 : ℚ)) ≠ none ∨ (some (92 : ℚ)) ≠ none))) := by
  decide

/-- C1 (amended): `calculateValueScore` returns non-null iff `retailPriceAvg`
is non-null *and nonzero* and at least one of `criticScore`/`communityScore`
is non-null. -/
theorem calculateValueScore_some_iff (p : ℚ) (retail critic community : Option ℚ) :
    calculateValueScore p retail critic community ≠ none ↔
      ((∃ r, retail = some r ∧ r ≠ 0) ∧ (critic ≠ none ∨ community ≠ none)) := by
  rcases retail with _ | r
  · simp [calculateValueScore, jsTruthy]
  · rcases critic with _ | c <;> rcases community with _ | m <;>
      by_cases hr : r = 0 <;>
      simp [calculateValueScore, jsTruthy, qualityScore, hr]

/-! ## C2 — markup formula and the end-to-end example -/

/-- C2 counterexample: the merge computes `markupPercent` whenever the merged
`retailPriceAvg` is truthy, which includes negative values, so "defined only
when `retailPriceAvg` is non-null and positive" fails at `retailPriceAvg = -300`. -/
theorem markup_positive_counterexample :
    (mergeWineData margauxWine (some negRetailData)).retailPriceAvg = some (-300)
    ∧ (mergeWineData margauxWine (some negRetailData)).markupPercent = some (-250)
    ∧ ¬ (0 : ℚ) < -300 := by
  refine ⟨by decide, ?_, by decide⟩
  with_unfolding_all rfl

/-- C2 (amended): the end-to-end example computes
`markupPercent = round(100*(450-300)/300) = 50`,
`qualityScore = 0.4*96 + 0.6*92 = 93.6` and
`valueScore = round(93.6/(450/300)) = 62`; in general the merge step sets
`markupPercent = round(100 * (menuPrice - retailPriceAvg) / retailPriceAvg)`,
and (starting from an unenriched wine) `markupPercent` is defined exactly
when `retailPriceAvg` is non-null and *nonzero*. -/
theorem markup_formula_and_example :
    (qualityScore (some 96) (some 92) = some 93.6
      ∧ (mergeWineData margauxWine (some margauxData)).markupPercent = some 50
      ∧ (mergeWineData margauxWine (some margauxData)).valueScore = some 62)
    ∧ (∀ (w : Wine) (d : WineLookupData) (r : ℚ),
        (mergeWineData w (some d)).retailPriceAvg = some r → r ≠ 0 →
        (mergeWineData w (some d)).markupPercent
          = some (jsRound (100 * (w.restaurantPrice - r) / r)))
    ∧ (∀ (w : Wine) (d : WineLookupData), w.markupPercent = none →
        ((mergeWineData w (some d)).markupPercent ≠ none ↔
          ∃ r, (mergeWineData w (some d)).retailPriceAvg = some r ∧ r ≠ 0)) := by
  refine ⟨⟨by with_unfolding_all rfl, by with_unfolding_all rfl, by with_unfolding_all rfl⟩,
    ?_, ?_⟩
  · intro w d r hr hr0
    simp only [mergeWineData] at hr ⊢
    rw [hr]
    simp only [jsTruthy, bne_iff_ne, ne_eq, hr0, not_false_eq_true, if_true, Option.getD_some,
      calculateMarkup]
    congr 1
    rw [div_mul_eq_mul_div, mul_comm]
  · intro w d hmk
    simp only [mergeWineData, hmk]
    rcases hR : (w.retailPriceAvg.or d.retailPriceAvg) with _ | r
    · simp [jsTruthy]
    · by_cases hr0 : r = 0 <;> simp [jsTruthy, hr0]

/-- Witness for `markup_formula_and_example`: its general markup formula
instantiated on the end-to-end example. -/
theorem markup_formula_witness :
    (mergeWineData margauxWine (some margauxData)).markupPercent
      = some (jsRound (100 * (450 - 300) / 300)) := by
  have h := markup_formula_and_example.2.1 margauxWine margauxData 300 (by decide) (by decide)
  simpa [margauxWine] using h

/-! ## C3 — lookup-status classification -/

/-- C3 counterexample: a merged wine whose `retailPriceAvg` is `some 0` (and
no other data) is classified `not_found`, although the claim's rule
("`partial` when any of the three fields is non-null") demands `partial`:
the classification uses JS truthiness, not non-nullness. -/
theorem lookupStatus_counterexample :
    (mergeWineData margauxWine (some zeroRetailData)).lookupStatus = .notFound
    ∧ (mergeWineData margauxWine (some zeroRetailData)).retailPriceAvg ≠ none
    ∧ (mergeWineData margauxWine (some zeroRetailData)).valueScore = none := by
  decide

/-- C3 (amended): after a merge, `lookupStatus` is `found` exactly when
`valueScore` is non-null; otherwise `partial` when any of `retailPriceAvg`,
`criticScore`, `communityScore` is truthy (non-null and nonzero); otherwise
`not_found`. -/
theorem lookupStatus_classification (w : Wine) (d : WineLookupData) :
    ((mergeWineData w (some d)).lookupStatus = .found ↔
      (mergeWineData w (some d)).valueScore ≠ none)
    ∧ ((mergeWineData w (some d)).lookupStatus = .partialStatus ↔
      ((mergeWineData w (some d)).valueScore = none
        ∧ (jsTruthy (mergeWineData w (some d)).retailPriceAvg
            || jsTruthy (mergeWineData w (some d)).criticScore
            || jsTruthy (mergeWineData w (some d)).communityScore) = true))
    ∧ ((mergeWineData w (some d)).lookupStatus = .notFound ↔
      ((mergeWineData w (some d)).valueScore = none
        ∧ (jsTruthy (mergeWineData w (some d)).retailPriceAvg
            || jsTruthy (mergeWineData w (some d)).criticScore
            || jsTruthy (mergeWineData w (some d)).communityScore) = false)) := by
  simp only [mergeWineData]
  rcases hV : calculateValueScore w.restaurantPrice (w.retailPriceAvg.or d.retailPriceAvg)
      (w.criticScore.or d.criticScore) (w.communityScore.or d.communityScore) with _ | v <;>
    rcases hT : (jsTruthy (w.retailPriceAvg.or d.retailPriceAvg)
        || jsTruthy (w.criticScore.or d.criticScore)
        || jsTruthy (w.communityScore.or d.communityScore)) with _ | _ <;>
    simp [hV, hT]

/-! ## C7 — value-score monotonicity -/

/-- Closed form of `calculateValueScore` when the retail price is nonzero and
a quality score exists. -/
theorem calculateValueScore_closed (p r : ℚ) (critic community : Option ℚ) (q : ℚ)
    (hr : r ≠ 0) (hq : qualityScore critic community = some q) :
    calculateValueScore p (some r) critic community
      = some (jsMin 100 (jsMax 0 (jsRound (q / (p / r))))) := by
  simp [calculateValueScore, jsTruthy, hr, hq]

/-- `jsRound` is monotone. -/
theorem jsRound_mono {a b : ℚ} (h : a ≤ b) : jsRound a ≤ jsRound b := by
  rw [jsRound_eq_floor, jsRound_eq_floor]
  exact Int.floor_le_floor (by linarith)

/-- The clamp `jsMin 100 (jsMax 0 ·)` is monotone. -/
theorem jsClamp_mono {a b : ℤ} (h : a ≤ b) :
    jsMin 100 (jsMax 0 a) ≤ jsMin 100 (jsMax 0 b) := by
  simp only [jsMin, jsMax]
  split_ifs <;> omega

/-- C7 counterexample: strictness fails because of the final rounding.
Raising the menu price from `450` to `451` (quality fixed) leaves
`valueScore` at `62`, and raising the quality score from `93.6` to `93.7`
(markup ratio fixed) also leaves it at `62` — neither result is clamped. -/
theorem valueScore_strictness_counterexample :
    calculateValueScore 450 (some 300) (some 96) (some 92) = some 62
    ∧ calculateValueScore 451 (some 300) (some 96) (some 92) = some 62
    ∧ calculateValueScore 450 (some 300) (some 96.25) (some 92) = some 62
    ∧ (62 : ℤ) ≠ 0 ∧ (62 : ℤ) ≠ 100 := by
  refine ⟨?_, ?_, ?_, by decide, by decide⟩ <;> with_unfolding_all rfl

/-- C7 (amended): with retail price and quality inputs fixed, increasing the
restaurant price never increases `calculateValueScore` (the unrounded
quotient strictly decreases, but rounding can keep the result equal); with
the markup ratio fixed, increasing the quality score never decreases it. -/
theorem valueScore_monotonicity :
    (∀ (critic community : Option ℚ) (q r p₁ p₂ : ℚ),
      qualityScore critic community = some q → 0 ≤ q → 0 < r → 0 < p₁ → p₁ < p₂ →
      ∃ i₁ i₂, calculateValueScore p₁ (some r) critic community = some i₁
        ∧ calculateValueScore p₂ (some r) critic community = some i₂
        ∧ i₂ ≤ i₁)
    ∧ (∀ (critic₁ community₁ critic₂ community₂ : Option ℚ) (q₁ q₂ r p : ℚ),
      qualityScore critic₁ community₁ = some q₁ →
      qualityScore critic₂ community₂ = some q₂ →
      q₁ ≤ q₂ → 0 < r → 0 < p →
      ∃ i₁ i₂, calculateValueScore p (some r) critic₁ community₁ = some i₁
        ∧ calculateValueScore p (some r) critic₂ community₂ = some i₂
        ∧ i₁ ≤ i₂) := by
  constructor
  · intro critic community q r p₁ p₂ hq hq0 hr hp₁ hlt
    refine ⟨_, _, calculateValueScore_closed _ _ _ _ _ (ne_of_gt hr) hq,
      calculateValueScore_closed _ _ _ _ _ (ne_of_gt hr) hq, ?_⟩
    apply jsClamp_mono
    apply jsRound_mono
    have h1 : 0 < p₁ / r := div_pos hp₁ hr
    have h2 : p₁ / r ≤ p₂ / r := by gcongr
    exact div_le_div_of_nonneg_left hq0 h1 h2
  · intro c₁ m₁ c₂ m₂ q₁ q₂ r p hq₁ hq₂ hle hr hp
    refine ⟨_, _, calculateValueScore_closed _ _ _ _ _ (ne_of_gt hr) hq₁,
      calculateValueScore_closed _ _ _ _ _ (ne_of_gt hr) hq₂, ?_⟩
    apply jsClamp_mono
    apply jsRound_mono
    have hpr : 0 < p / r := div_pos hp hr
    gcongr

/-- Witness for `valueScore_monotonicity`: both halves instantiated on
concrete prices, retail values and quality inputs. -/
theorem valueScore_monotonicity_witness :
    (∃ i₁ i₂, calculateValueScore 450 (some 300) (some 90) (some 90) = some i₁
      ∧ calculateValueScore 900 (some 300) (some 90) (some 90) = some i₂
      ∧ i₂ ≤ i₁)
    ∧ (∃ i₁ i₂, calculateValueScore 450 (some 300) (some 80) (some 80) = some i₁
      ∧ calculateValueScore 450 (some 300) (some 90) (some 90) = some i₂
      ∧ i₁ ≤ i₂) :=
  ⟨valueScore_monotonicity.1 (some 90) (some 90) 90 300 450 900
      (by with_unfolding_all rfl) (by decide) (by decide) (by decide) (by decide),
    valueScore_monotonicity.2 (some 80) (some 80) (some 90) (some 90) 80 90 300 450
      (by with_unfolding_all rfl) (by with_unfolding_all rfl)
      (by decide) (by decide) (by decide)⟩

/-! ## C5 — web-search fallback adoption -/

/-- C5: whenever the structured price source did not settle with `success`
and non-null price or critic data — in particular on `no_match` — the
orchestrator invokes `lookupViaWebSearch` and adopts its `retailPriceAvg`,
`retailPriceMin` and `criticScore` into the returned payload. -/
theorem fallback_adoption (api : Option WineSearcherApiResult)
    (comm : Option CommunityScoreResult) (fb : WebSearchFallbackResult)
    (h : api = none ∨ ∃ a, api = some a ∧
      (a.status ≠ .success ∨ (a.retailPriceAvg = none ∧ a.criticScore = none))) :
    (lookupSingleWine api comm fb).2 = true
    ∧ (lookupSingleWine api comm fb).1.retailPriceAvg = fb.retailPriceAvg
    ∧ (lookupSingleWine api comm fb).1.retailPriceMin = fb.retailPriceMin
    ∧ (lookupSingleWine api comm fb).1.criticScore = fb.criticScore := by
  have hgood : apiDataGood api = false := by
    rcases h with rfl | ⟨a, rfl, h⟩
    · rfl
    · rcases h with h | ⟨h1, h2⟩ <;> simp [apiDataGood, *]
  refine ⟨?_, ?_, ?_, ?_⟩ <;>
    simp only [lookupSingleWine, hgood, Bool.false_eq_true, if_false] <;>
    first
      | trivial
      | (split <;> trivial)

/-- Witness for `fallback_adoption`: the structured source answers
`no_match`, the community source rejects, and the fallback's fields are
adopted. -/
theorem fallback_adoption_witness :
    (lookupSingleWine (some (nullApiResult .noMatch)) none
        ⟨some 25, some 20, some 90, some 88, some 12⟩).2 = true
    ∧ (lookupSingleWine (some (nullApiResult .noMatch)) none
        ⟨some 25, some 20, some 90, some 88, some 12⟩).1.retailPriceAvg = some 25
    ∧ (lookupSingleWine (some (nullApiResult .noMatch)) none
        ⟨some 25, some 20, some 90, some 88, some 12⟩).1.retailPriceMin = some 20
    ∧ (lookupSingleWine (some (nullApiResult .noMatch)) none
        ⟨some 25, some 20, some 90, some 88, some 12⟩).1.criticScore = some 90 :=
  fallback_adoption (some (nullApiResult .noMatch)) none
    ⟨some 25, some 20, some 90, some 88, some 12⟩
    (Or.inr ⟨nullApiResult .noMatch, rfl, Or.inl (by decide)⟩)

/-! ## C6 — daily-quota gate of the structured price source -/

/-- C6: with an API key configured, once `DAILY_LIMIT = 95` calls were
counted within the same local day, every further invocation returns
`rate_limited` without attempting the external call and without changing the
counter state; when the local day changes the counter resets, so the call is
permitted (and counted as the first of the new day); and an external call is
only ever attempted after the gate granted it. -/
theorem dailyQuotaGate (today : ℕ) (st : RateState) (ext : WineSearcherApiResult) :
    (st.dailyResetDate = today → DAILY_LIMIT ≤ st.dailyCallCount →
      lookupViaWineSearcherApi true today st ext = (nullApiResult .rateLimited, st, false))
    ∧ (st.dailyResetDate ≠ today →
      lookupViaWineSearcherApi true today st ext = (ext, ⟨1, today⟩, true))
    ∧ (∀ hasKey : Bool, (lookupViaWineSearcherApi hasKey today st ext).2.2 = true →
        hasKey = true ∧ (checkAndIncrementDailyLimit today st).1 = true) := by
  have hsame : st.dailyResetDate = today →
      (today != st.dailyResetDate) = false := by
    intro hd; simp [hd]
  refine ⟨?_, ?_, ?_⟩
  · intro hd hcnt
    have hc : checkAndIncrementDailyLimit today st = (false, st) := by
      simp [checkAndIncrementDailyLimit, hsame hd, hcnt]
    simp [lookupViaWineSearcherApi, hc]
  · intro hd
    have hd' : (today != st.dailyResetDate) = true := by
      simp [bne_iff_ne]; exact fun hh => hd hh.symm
    have hc : checkAndIncrementDailyLimit today st = (true, ⟨1, today⟩) := by
      simp [checkAndIncrementDailyLimit, hd', DAILY_LIMIT]
    simp [lookupViaWineSearcherApi, hc]
  · intro hasKey h
    refine ⟨?_, ?_⟩
    · cases hasKey
      · simp [lookupViaWineSearcherApi] at h
      · rfl
    · by_contra hgate
      rw [Bool.not_eq_true] at hgate
      have hc : checkAndIncrementDailyLimit today st
          = (false, (checkAndIncrementDailyLimit today st).2) := by
        rw [← hgate]
      cases hasKey
      · simp [lookupViaWineSearcherApi] at h
      · rw [lookupViaWineSearcherApi] at h
        rw [hc] at h
        simp at h

/-- Witness for `dailyQuotaGate`: at 95 counted calls on the same day the
call is refused with `rate_limited`; on a new day it goes through. -/
theorem dailyQuotaGate_witness :
    lookupViaWineSearcherApi true 7 ⟨95, 7⟩ (nullApiResult .success)
      = (nullApiResult .rateLimited, ⟨95, 7⟩, false)
    ∧ lookupViaWineSearcherApi true 8 ⟨95, 7⟩ (nullApiResult .success)
      = (nullApiResult .success, ⟨1, 8⟩, true) :=
  ⟨(dailyQuotaGate 7 ⟨95, 7⟩ (nullApiResult .success)).1 rfl (by decide),
    (dailyQuotaGate 8 ⟨95, 7⟩ (nullApiResult .success)).2.1 (by decide)⟩

/-! ## C8 — name normalization is *not* idempotent -/

/-- C8: `normalizeWineName` is not idempotent.  On `"vydvyd"` the first
`vyd`-expansion consumes the characters up to the second `vyd`, which has no
word boundary before it in the original string; the output `"Vineyard vyd"`
now exposes that boundary, so a second application expands again. -/
theorem normalizeWineName_not_idempotent :
    normalizeWineName "vydvyd" = "Vineyard vyd"
    ∧ normalizeWineName "Vineyard vyd" = "Vineyard Vineyard"
    ∧ normalizeWineName (normalizeWineName "vydvyd") ≠ normalizeWineName "vydvyd" := by
  decide

/-! ## C9 — edit resets enrichment but does not invalidate the cache -/

/-- C9 counterexample: editing the wine leaves its cache entry in place —
`clearWineCache` is never called by the `PUT /:sessionId/:index` handler, so
the entry under the wine's key is still present afterwards. -/
theorem edit_cache_counterexample :
    (editSystemStep enrichedSession 0 priceEditBody enrichedCache).map
        (fun out => List.lookup (cacheKey enrichedWine "USD") out.2)
      = some (some margauxData) := by
  decide

/-- C9 (amended): the edit operation resets every enrichment field to the
unenriched state and `lookupStatus` to `pending`, but does *not* invalidate
the wine's cache entry: the lookup cache passes through the edit unchanged
(explicit invalidation happens only in the scheduler's retry pass). -/
theorem edit_resets_but_keeps_cache (sess : Session) (i : ℕ) (body : EditBody)
    (cache : Cache) (out : Session × Cache)
    (h : editSystemStep sess i body cache = some out) :
    out.2 = cache
    ∧ ∃ w', out.1.wines.get? i = some w'
        ∧ w'.retailPriceAvg = none ∧ w'.retailPriceMin = none
        ∧ w'.criticScore = none ∧ w'.communityScore = none
        ∧ w'.communityReviewCount = none ∧ w'.lookupStatus = .pending
        ∧ w'.markupPercent = none ∧ w'.valueScore = none := by
  simp only [editSystemStep, editWineHandler] at h
  rcases hg : sess.wines.get? i with _ | w
  · rw [hg] at h; simp at h
  · rw [hg] at h
    simp only [Option.map_some', Option.some.injEq] at h
    subst h
    refine ⟨rfl, ?_⟩
    have hi : i < sess.wines.length := by
      rw [List.get?_eq_getElem?] at hg
      exact (List.getElem?_eq_some_iff.mp hg).1
    refine ⟨{ w with
        name := body.name.getD w.name
        producer := body.producer.getD w.producer
        vintage := body.vintage.getD w.vintage
        restaurantPrice := body.restaurantPrice.getD w.restaurantPrice
        retailPriceAvg := none
        retailPriceMin := none
        criticScore := none
        communityScore := none
        communityReviewCount := none
        lookupStatus := .pending
        markupPercent := none
        valueScore := none }, ?_, rfl, rfl, rfl, rfl, rfl, rfl, rfl, rfl⟩
    rw [List.get?_eq_getElem?]
    exact List.getElem?_set_eq_of_lt _ hi

/-- Witness for `edit_resets_but_keeps_cache`: the concrete edit scenario. -/
theorem edit_resets_witness :
    (editSystemStep enrichedSession 0 priceEditBody enrichedCache).map (·.2)
        = some enrichedCache
    ∧ ∃ w', ((editSystemStep enrichedSession 0 priceEditBody enrichedCache).getD
          (enrichedSession, enrichedCache)).1.wines.get? 0 = some w'
        ∧ w'.lookupStatus = .pending ∧ w'.valueScore = none := by
  have h := edit_resets_but_keeps_cache enrichedSession 0 priceEditBody enrichedCache
    ((editWineHandler enrichedSession 0 priceEditBody).getD enrichedSession, enrichedCache)
    (by decide)
  obtain ⟨h1, w', hw, _, _, _, _, _, hst, _, hvs⟩ := h
  exact ⟨by decide, w', by simpa [editSystemStep] using hw, hst, hvs⟩

/-! ## C4 — retry pass: supporting lemmas -/

/-- `lookupWinesBatch` returns one result per wine of the wave. -/
theorem lookupWinesBatch_length (o : Wine → WineLookupData) (c : Cache)
    (cur : String) (wave : List Wine) :
    ((lookupWinesBatch o c cur wave).1).length = wave.length := by
  simp [lookupWinesBatch]

/-- Every element of a `zipWith` comes from a pair of elements of the inputs. -/
theorem mem_zipWith {α β γ : Type _} (f : α → β → γ) :
    ∀ (as : List α) (bs : List β) (x : γ),
      x ∈ List.zipWith f as bs → ∃ a b, a ∈ as ∧ b ∈ bs ∧ x = f a b := by
  intro as
  induction as with
  | nil => intro bs x h; simp at h
  | cons a as ih =>
    intro bs x h
    cases bs with
    | nil => simp at h
    | cons b bs =>
      rw [List.zipWith_cons_cons] at h
      rcases List.mem_cons.mp h with h | h
      · exact ⟨a, b, List.mem_cons_self a as, List.mem_cons_self b bs, h⟩
      · obtain ⟨a', b', ha, hb, hx⟩ := ih bs x h
        exact ⟨a', b', List.mem_cons_of_mem _ ha, List.mem_cons_of_mem _ hb, hx⟩

/-- `runWaves` returns one processed wine per input wine. -/
theorem runWaves_fst_length (o : Wine → WineLookupData) (cur : String) :
    ∀ (l : List Wine) (c : Cache), ((runWaves o cur l c).1).length = l.length := by
  intro l c
  induction l, c using runWaves.induct o cur with
  | case1 cache => simp [runWaves]
  | case2 a b c' d e rest cache wave r ih =>
    have ih' : (runWaves o cur rest
        (lookupWinesBatch o cache cur [a, b, c', d, e]).2).1.length = rest.length := ih
    simp only [runWaves, List.length_append, List.length_zipWith,
      lookupWinesBatch_length, List.length_cons, List.length_nil] at ih' ⊢
    omega
  | case3 l cache h1 h2 =>
    match l, h1, h2 with
    | [], h1, _ => exact absurd rfl h1
    | [x1], _, _ => simp [runWaves, lookupWinesBatch_length]
    | [x1, x2], _, _ => simp [runWaves, lookupWinesBatch_length]
    | [x1, x2, x3], _, _ => simp [runWaves, lookupWinesBatch_length]
    | [x1, x2, x3, x4], _, _ => simp [runWaves, lookupWinesBatch_length]
    | x1 :: x2 :: x3 :: x4 :: x5 :: xs, _, h2 => exact absurd rfl (h2 x1 x2 x3 x4 x5 xs)

/-- Every wine produced by `runWaves` is the merge of an input wine with some
lookup data. -/
theorem runWaves_fst_mem (o : Wine → WineLookupData) (cur : String) :
    ∀ (l : List Wine) (c : Cache) (x : Wine), x ∈ (runWaves o cur l c).1 →
      ∃ w d, w ∈ l ∧ x = mergeWineData w (some d) := by
  intro l c
  induction l, c using runWaves.induct o cur with
  | case1 cache => intro x h; simp [runWaves] at h
  | case2 a b c' d e rest cache wave r ih =>
    intro x h
    rw [runWaves] at h
    rcases List.mem_append.mp h with h | h
    · obtain ⟨w, dt, hw, _, hx⟩ := mem_zipWith _ _ _ _ h
      refine ⟨w, dt, ?_, hx⟩
      have hw' : w = a ∨ w = b ∨ w = c' ∨ w = d ∨ w = e := by simpa using hw
      rcases hw' with rfl | rfl | rfl | rfl | rfl <;> simp
    · obtain ⟨w, dt, hw, hx⟩ := ih x h
      exact ⟨w, dt, by simp [List.mem_cons, hw], hx⟩
  | case3 l cache h1 h2 =>
    intro x h
    have hz : x ∈ List.zipWith (fun x dt => mergeWineData x (some dt)) l
        (lookupWinesBatch o cache cur l).1 := by
      match l, h1, h2 with
      | [], h1, _ => exact absurd rfl h1
      | [x1], _, _ => exact h
      | [x1, x2], _, _ => exact h
      | [x1, x2, x3], _, _ => exact h
      | [x1, x2, x3, x4], _, _ => exact h
      | x1 :: x2 :: x3 :: x4 :: x5 :: xs, _, h2 => exact absurd rfl (h2 x1 x2 x3 x4 x5 xs)
    obtain ⟨w, dt, hw, _, hx⟩ := mem_zipWith _ _ _ _ hz
    exact ⟨w, dt, hw, hx⟩

/-- Membership in `updateFiltered`, when enough processed results are
supplied (as the scheduler always does): an element is either one of the
processed results or an untouched element not selected by the filter. -/
theorem updateFiltered_mem (p : Wine → Bool) :
    ∀ (l news : List Wine) (x : Wine), (l.filter p).length ≤ news.length →
      x ∈ updateFiltered p l news → x ∈ news ∨ (x ∈ l ∧ p x = false) := by
  intro l
  induction l with
  | nil => intro news x _ hx; simp [updateFiltered] at hx
  | cons a l ih =>
    intro news x hlen hx
    by_cases hp : p a = true
    · have hf : ((a :: l).filter p).length = (l.filter p).length + 1 := by
        simp [List.filter_cons, hp]
      cases news with
      | nil => rw [hf] at hlen; simp at hlen
      | cons n ns =>
        simp only [updateFiltered, hp, if_true] at hx
        rcases List.mem_cons.mp hx with rfl | hx
        · exact Or.inl (List.mem_cons_self _ _)
        · have hlen' : (l.filter p).length ≤ ns.length := by
            rw [hf] at hlen; simpa using hlen
          rcases ih ns x hlen' hx with h | ⟨h1, h2⟩
          · exact Or.inl (List.mem_cons_of_mem _ h)
          · exact Or.inr ⟨List.mem_cons_of_mem _ h1, h2⟩
    · rw [Bool.not_eq_true] at hp
      simp only [updateFiltered, hp, Bool.false_eq_true, if_false] at hx
      rcases List.mem_cons.mp hx with rfl | hx
      · exact Or.inr ⟨List.mem_cons_self x l, hp⟩
      · have hlen' : (l.filter p).length ≤ news.length := by
          rw [List.filter_cons, if_neg (by simp [hp])] at hlen; exact hlen
        rcases ih news x hlen' hx with h | ⟨h1, h2⟩
        · exact Or.inl h
        · exact Or.inr ⟨List.mem_cons_of_mem _ h1, h2⟩

/-- `updateFiltered` preserves the length of the original list. -/
theorem updateFiltered_length (p : Wine → Bool) :
    ∀ (l news : List Wine), (updateFiltered p l news).length = l.length := by
  intro l
  induction l with
  | nil => intro news; rfl
  | cons a l ih =>
    intro news
    by_cases hp : p a = true
    · cases news with
      | nil => simp [updateFiltered, hp, ih]
      | cons n ns => simp [updateFiltered, hp, ih]
    · rw [Bool.not_eq_true] at hp
      simp [updateFiltered, hp, ih]

/-- A merged wine is classified `found`, `partial` or `not_found`. -/
theorem mergeWineData_some_status (w : Wine) (d : WineLookupData) :
    (mergeWineData w (some d)).lookupStatus = .found
    ∨ (mergeWineData w (some d)).lookupStatus = .partialStatus
    ∨ (mergeWineData w (some d)).lookupStatus = .notFound := by
  simp only [mergeWineData]
  split_ifs <;> simp

/-- Looking up a key in a cache from which it was deleted yields nothing. -/
theorem lookup_erase_self (k : String) (c : Cache) :
    List.lookup k (c.filter (fun e => e.1 != k)) = none := by
  induction c with
  | nil => rfl
  | cons e c ih =>
    by_cases he : e.1 = k
    · simp only [List.filter_cons, he, bne_self_eq_false, Bool.false_eq_true, if_false]
      exact ih
    · have : (e.1 != k) = true := by simp [bne_iff_ne, he]
      simp only [List.filter_cons, this, if_true]
      rw [List.lookup_cons]
      have : (k == e.1) = false := by simp [beq_eq_false_iff_ne]; exact fun hh => he hh.symm
      simp [this, ih]

/-- Deleting any key preserves the absence of a key. -/
theorem lookup_erase_none (k k' : String) (c : Cache)
    (h : List.lookup k c = none) :
    List.lookup k (c.filter (fun e => e.1 != k')) = none := by
  induction c with
  | nil => rfl
  | cons e c ih =>
    rw [List.lookup_cons] at h
    rcases hke : (k == e.1) with _ | _
    · rw [hke] at h
      simp only [Bool.false_eq_true, if_false] at h
      by_cases hf : (e.1 != k') = true
      · simp only [List.filter_cons, hf, if_true]
        rw [List.lookup_cons, hke]
        simpa using ih h
      · rw [Bool.not_eq_true] at hf
        simp only [List.filter_cons, hf, Bool.false_eq_true, if_false]
        exact ih h
    · rw [hke] at h; simp at h

/-- Folding cache clears over a list preserves the absence of a key. -/
theorem foldl_clear_preserve (cur : String) (k : String) :
    ∀ (lst : List Wine) (c : Cache), List.lookup k c = none →
      List.lookup k (lst.foldl (fun acc x => clearWineCache x cur acc) c) = none := by
  intro lst
  induction lst with
  | nil => intro c h; exact h
  | cons a lst ih =>
    intro c h
    exact ih _ (lookup_erase_none k (cacheKey a cur) c h)

/-- After folding cache clears over a list, no member's key is present. -/
theorem foldl_clear_lookup (cur : String) :
    ∀ (lst : List Wine) (c : Cache) (w : Wine), w ∈ lst →
      List.lookup (cacheKey w cur)
        (lst.foldl (fun acc x => clearWineCache x cur acc) c) = none := by
  intro lst
  induction lst with
  | nil => intro c w hw; simp at hw
  | cons a lst ih =>
    intro c w hw
    rcases List.mem_cons.mp hw with rfl | hw
    · exact foldl_clear_preserve cur (cacheKey w cur) lst _
        (lookup_erase_self (cacheKey w cur) c)
    · exact ih _ w hw

/-- After pass 1, no wine of the session is still `pending`: the processed
ones were merged (hence classified), the untouched ones were not pending. -/
theorem lookupRun_wines1_mem (o1 o2 : Wine → WineLookupData) (cache : Cache)
    (sess : Session) (w : Wine) (hw : w ∈ (lookupRun o1 o2 cache sess).wines1) :
    (∃ w0 d, w = mergeWineData w0 (some d))
    ∨ (w ∈ sess.wines ∧ w.lookupStatus ≠ .pending) := by
  have hlen : ((sess.wines.filter (fun x => x.lookupStatus == .pending)).length)
      ≤ ((runWaves o1 sess.currency
          (sess.wines.filter (fun x => x.lookupStatus == .pending)) cache).1).length := by
    rw [runWaves_fst_length]
  rcases updateFiltered_mem _ sess.wines _ w hlen hw with h | ⟨h1, h2⟩
  · obtain ⟨w0, d, _, hx⟩ := runWaves_fst_mem o1 sess.currency _ cache w h
    exact Or.inl ⟨w0, d, hx⟩
  · refine Or.inr ⟨h1, ?_⟩
    simpa using h2

/-- After pass 1 every wine's status differs from `pending`. -/
theorem lookupRun_wines1_not_pending (o1 o2 : Wine → WineLookupData) (cache : Cache)
    (sess : Session) (w : Wine) (hw : w ∈ (lookupRun o1 o2 cache sess).wines1) :
    w.lookupStatus ≠ .pending := by
  rcases lookupRun_wines1_mem o1 o2 cache sess w hw with ⟨w0, d, rfl⟩ | ⟨_, h⟩
  · rcases mergeWineData_some_status w0 d with h | h | h <;> simp [h]
  · exact h

/-! ## C4 — the retry pass -/

/-- C4: after pass 1, every wine whose `valueScore` is still null is
collected for the (single) retry pass and its cache entry is invalidated;
every wine that already has a non-null `valueScore` is not re-attempted; and
the run ends with the session status `complete`. -/
theorem retry_pass (o1 o2 : Wine → WineLookupData) (cache : Cache) (sess : Session)
    (w : Wine) (hw : w ∈ (lookupRun o1 o2 cache sess).wines1) :
    (w.valueScore = none →
      w ∈ (lookupRun o1 o2 cache sess).retried
      ∧ List.lookup (cacheKey w sess.currency)
          (lookupRun o1 o2 cache sess).cacheCleared = none)
    ∧ (w.valueScore ≠ none → w ∉ (lookupRun o1 o2 cache sess).retried)
    ∧ (lookupRun o1 o2 cache sess).finalStatus = .complete := by
  have hnp := lookupRun_wines1_not_pending o1 o2 cache sess w hw
  refine ⟨?_, ?_, rfl⟩
  · intro hv
    have hpred : retryPred w = true := by
      simp [retryPred, hv, bne_iff_ne, hnp]
    have hmem : w ∈ (lookupRun o1 o2 cache sess).retried :=
      List.mem_filter.mpr ⟨hw, hpred⟩
    exact ⟨hmem, foldl_clear_lookup sess.currency _ _ w hmem⟩
  · intro hv hmem
    have hpred := (List.mem_filter.mp hmem).2
    simp only [retryPred, Bool.and_eq_true, Option.isNone_iff_eq_none] at hpred
    exact hv hpred.1

/-- Witness for `retry_pass`: a session whose only wine gets a null-filled
lookup result on pass 1 (so its value score stays null): it lands in the
retry set, its cache entry is cleared, and the run completes. -/
theorem retry_pass_witness :
    ({ margauxWine with lookupStatus := LookupStatus.notFound } : Wine)
        ∈ (lookupRun (fun _ => nullLookupData) (fun _ => nullLookupData) [] testSession).retried
    ∧ List.lookup
        (cacheKey { margauxWine with lookupStatus := LookupStatus.notFound } "USD")
        (lookupRun (fun _ => nullLookupData) (fun _ => nullLookupData) [] testSession).cacheCleared
      = none
    ∧ (lookupRun (fun _ => nullLookupData) (fun _ => nullLookupData) [] testSession).finalStatus
      = .complete := by
  have h := retry_pass (fun _ => nullLookupData) (fun _ => nullLookupData) [] testSession
    { margauxWine with lookupStatus := .notFound } (by decide)
  obtain ⟨h1, _, h3⟩ := h
  obtain ⟨hm, hc⟩ := h1 rfl
  exact ⟨hm, hc, h3⟩

/-! ## C10 — the `error` lookup status is never assigned -/

/-- C10: no operation ever assigns `lookupStatus = 'error'`: in every
reachable wine list, each wine's status is one of `pending`, `found`,
`partial`, `not_found`. -/
theorem lookupStatus_never_error (ws : List Wine) (h : ReachableWines ws) :
    ∀ w ∈ ws, w.lookupStatus = .pending ∨ w.lookupStatus = .found
      ∨ w.lookupStatus = .partialStatus ∨ w.lookupStatus = .notFound := by
  induction h with
  | upload ps =>
    intro w hw
    obtain ⟨p, _, rfl⟩ := List.mem_map.mp hw
    exact Or.inl rfl
  | lookup o1 o2 cache sess out hr hpost ih =>
    intro w hw
    have hout : out = lookupRun o1 o2 cache sess := by
      by_cases hs : (sess.status == SessionStatus.lookingUp) = true
      · simp [postLookupHandler, hs] at hpost
      · rw [Bool.not_eq_true] at hs
        simp only [postLookupHandler, hs, Bool.false_eq_true, if_false,
          Option.some.injEq] at hpost
        exact hpost.symm
    subst hout
    rw [show (lookupRun o1 o2 cache sess).finalWines
        = updateFiltered retryPred (lookupRun o1 o2 cache sess).wines1
            (runWaves o2 sess.currency (lookupRun o1 o2 cache sess).retried
              (lookupRun o1 o2 cache sess).cacheCleared).1 from rfl] at hw
    have hlen : (((lookupRun o1 o2 cache sess).wines1.filter retryPred).length)
        ≤ ((runWaves o2 sess.currency (lookupRun o1 o2 cache sess).retried
            (lookupRun o1 o2 cache sess).cacheCleared).1).length := by
      rw [runWaves_fst_length]
      exact Nat.le_refl _
    rcases updateFiltered_mem retryPred _ _ w hlen hw with hmem | ⟨h1, _⟩
    · obtain ⟨w0, d, _, rfl⟩ := runWaves_fst_mem o2 sess.currency _ _ w hmem
      rcases mergeWineData_some_status w0 d with h | h | h <;> simp [h]
    · rcases lookupRun_wines1_mem o1 o2 cache sess w h1 with ⟨w0, d, rfl⟩ | ⟨hold, _⟩
      · rcases mergeWineData_some_status w0 d with h | h | h <;> simp [h]
      · exact ih w hold
  | edit sess i body sess' hr hedit ih =>
    intro w hw
    simp only [editWineHandler] at hedit
    rcases hg : sess.wines.get? i with _ | w0
    · rw [hg] at hedit; simp at hedit
    · rw [hg] at hedit
      simp only [Option.some.injEq] at hedit
      subst hedit
      rcases List.mem_or_eq_of_mem_set hw with hold | rfl
      · exact ih w hold
      · exact Or.inl rfl

/-- Witness for `lookupStatus_never_error`: the single uploaded wine of a
one-wine parse result. -/
theorem lookupStatus_never_error_witness :
    (initWine ⟨"W", "P", none, "", "", 10, "", 1⟩).lookupStatus = .pending
    ∨ (initWine ⟨"W", "P", none, "", "", 10, "", 1⟩).lookupStatus = .found
    ∨ (initWine ⟨"W", "P", none, "", "", 10, "", 1⟩).lookupStatus = .partialStatus
    ∨ (initWine ⟨"W", "P", none, "", "", 10, "", 1⟩).lookupStatus = .notFound :=
  lookupStatus_never_error ([⟨"W", "P", none, "", "", 10, "", 1⟩].map initWine)
    (ReachableWines.upload [⟨"W", "P", none, "", "", 10, "", 1⟩])
    (initWine ⟨"W", "P", none, "", "", 10, "", 1⟩)
    (List.mem_singleton.mpr rfl)

end WineValue
